import Mathlib

/-
Verification development for the chip16 CPU core (cpu.py).

The machine is embedded shallowly:
  - Python memory is a 65536-cell list whose cells start as the sentinel
    None; a cell therefore holds `Option Nat` (a written cell can hold an
    arbitrary nonnegative integer, since handler slips can store values
    larger than a byte).
  - The 16 general registers likewise start as None and hold `Option Nat`.
  - Fallible operations (list indexing out of range, arithmetic on the
    None sentinel, dictionary lookup misses) return `Except PyErr`:
    `indexError` models IndexError, `typeError` models TypeError raised by
    arithmetic or subscripting on None, and `keyError` models the KeyError
    raised by the dispatch-table lookup (its payload is the key, exactly
    the information the Python exception carries).
  - The graphics and sound units are external collaborators; they are
    modelled as abstract state: oracle fields (`vblankResult`,
    `drwResult`) stand for the boolean each call returns, and the
    remaining fields record what the engine wrote or requested.
  - `random.randint(0, hhll)` is modelled by an oracle value stored in
    the state, reduced into the interval [0, hhll].
The logging calls of cpu.py build diagnostic strings only and mutate no
machine state; they are omitted.
-/

namespace Chip16

/-- Errors a step of the interpreter can surface, mirroring the Python
exceptions: IndexError with the offending index, TypeError from using the
None sentinel in arithmetic or as an index, and KeyError carrying the key
missed in the dispatch dictionary. -/
inductive PyErr where
  | typeError
  | indexError (idx : Nat)
  | keyError (key : Option Nat)
deriving DecidableEq

/-- Sound-unit requests the engine can issue (spu collaborator). -/
inductive SpuCmd where
  | idle
  | stop
  | play500 (d : Nat)
  | play1000 (d : Nat)
  | play1500 (d : Nat)
  | playTone (f : Option Nat) (d : Nat)
  | setup (ad : Nat) (vtsr : Nat)
deriving DecidableEq

/-- Abstract graphics collaborator: oracle fields for the booleans its
methods return, plus fields recording what the engine set. -/
structure Gpu where
  vblankResult : Bool
  drwResult : Bool
  bg : Nat
  spritew : Nat
  spriteh : Nat
  fgCleared : Bool
  bgCleared : Bool
  flipH : Bool
  flipV : Bool
deriving DecidableEq

/-- Abstract sound collaborator: records the last request. -/
structure Spu where
  last : SpuCmd
deriving DecidableEq

/-- The CPU state of cpu.py: pc, sp, 16 registers, flags, 65536 memory
cells, cycle counter, plus the two collaborators and the randomness
oracle. Registers and memory cells start as the None sentinel. -/
structure Cpu where
  pc : Nat
  sp : Nat
  r : Fin 16 → Option Nat
  flag : Nat
  memory : Fin 65536 → Option Nat
  current_cyles : Nat
  gpu : Gpu
  spu : Spu
  randOracle : Nat

/-- Cpu.reset: pc to RAM_ROM_START, sp to STACK_START, registers and
memory to the unset sentinel, flags and cycle counter to zero. (The
Python method also rebuilds the dispatch table, which is stateless
here.) -/
def Cpu.reset (c : Cpu) : Cpu :=
  { c with pc := 0x0000, sp := 0xFDF0, r := fun _ => none, flag := 0,
           memory := fun _ => none, current_cyles := 0 }

/-- self.memory[i] as an expression: IndexError when out of range,
otherwise the cell content (possibly the None sentinel). -/
def readCell (c : Cpu) (i : Nat) : Except PyErr (Option Nat) :=
  if h : i < 65536 then .ok (c.memory ⟨i, h⟩) else .error (.indexError i)

/-- self.memory[i] followed by arithmetic on the result: IndexError when
out of range, TypeError when the cell holds the None sentinel. -/
def getCell (c : Cpu) (i : Nat) : Except PyErr Nat :=
  match readCell c i with
  | .error e => .error e
  | .ok none => .error .typeError
  | .ok (some v) => .ok v

/-- self.memory[i] = v (v may be the None sentinel, copied from a
register): IndexError when out of range. -/
def setMem (c : Cpu) (i : Nat) (v : Option Nat) : Except PyErr Cpu :=
  if h : i < 65536 then
    .ok { c with memory := Function.update c.memory ⟨i, h⟩ v }
  else .error (.indexError i)

/-- self.r[i] as an expression: IndexError when i is not below 16
(decoded y nibbles can exceed 15 when a corrupted cell is decoded). -/
def getReg (c : Cpu) (i : Nat) : Except PyErr (Option Nat) :=
  if h : i < 16 then .ok (c.r ⟨i, h⟩) else .error (.indexError i)

/-- self.r[i] = v: IndexError when i is not below 16. -/
def setReg (c : Cpu) (i : Nat) (v : Option Nat) : Except PyErr Cpu :=
  if h : i < 16 then
    .ok { c with r := Function.update c.r ⟨i, h⟩ v }
  else .error (.indexError i)

/-- Cpu.__create_16bit_two_complement: the signed 16-bit interpretation
of a value (subtract 65536 when bit 15 is set). -/
def create_16bit_two_complement (value : Nat) : Int :=
  if value &&& (1 <<< (16 - 1)) ≠ 0 then (value : Int) - (1 <<< 16) else (value : Int)

/-- Cpu.write: little-endian 16-bit store, low byte at address, high
byte at address + 1. -/
def write (c : Cpu) (address value : Nat) : Except PyErr Cpu :=
  match setMem c address (some (value &&& 0xFF)) with
  | .error e => .error e
  | .ok c1 => setMem c1 (address + 1) (some (value >>> 8))

/-- Cpu.read: little-endian 16-bit load, returned through the signed
16-bit interpretation. The high cell is subscripted first, as in the
Python expression. -/
def read (c : Cpu) (address : Nat) : Except PyErr Int :=
  match getCell c (address + 1) with
  | .error e => .error e
  | .ok hi =>
    match getCell c address with
    | .error e => .error e
    | .ok lo => .ok (create_16bit_two_complement ((hi <<< 8) ||| lo))

/-- The decoded field set produced by Cpu.create_params. The opcode cell
is stored without arithmetic, so it may be the None sentinel. -/
structure Params where
  op_code : Option Nat
  x : Nat
  y : Nat
  n : Nat
  z : Nat
  ll : Nat
  hh : Nat
  hflip : Nat
  vflip : Nat
  hhll : Nat
  vtsr : Nat
  ad : Nat

/-- Cpu.create_params: decode the 4-byte instruction slot at the given
address. Cells are subscripted in the source order (address, address+1,
address+2, address+3); the opcode cell is read without arithmetic, the
three operand cells feed shifts and masks and so raise TypeError when
unset. -/
def create_params (c : Cpu) (address : Nat) : Except PyErr Params :=
  match readCell c address with
  | .error e => .error e
  | .ok op_code =>
    match getCell c (address + 1) with
    | .error e => .error e
    | .ok b1 =>
      match getCell c (address + 2) with
      | .error e => .error e
      | .ok b2 =>
        match getCell c (address + 3) with
        | .error e => .error e
        | .ok b3 =>
          .ok { op_code := op_code,
                y := b1 >>> 4, x := b1 &&& 0b1111,
                n := b2 &&& 0b1111, z := b2 &&& 0b1111,
                ll := b2, hh := b3,
                hflip := b3 >>> 1, vflip := b3 &&& 1,
                hhll := (b3 <<< 8) ||| b2, vtsr := (b3 <<< 8) ||| b2,
                ad := b1 }

/-
Opcode handlers. Each takes the decoded fields and the state and yields
either an error or the new state paired with the value the Python
handler returns: `some len` for a normal instruction length, `none` for
the JmpException raised by jmp (pc already assigned in the state).
-/

/-- Handler 0x00 NOP. -/
def nop (_ : Params) (c : Cpu) : Except PyErr (Cpu × Option Nat) :=
  .ok (c, some 4)

/-- Handler 0x01 CLS: requests both framebuffer clears. -/
def cls (_ : Params) (c : Cpu) : Except PyErr (Cpu × Option Nat) :=
  .ok ({ c with gpu := { c.gpu with fgCleared := true, bgCleared := true } }, some 4)

/-- Handler 0x02 VBLNK: returns length 4 when the collaborator reports
vblank, otherwise length 0. -/
def vblank (_ : Params) (c : Cpu) : Except PyErr (Cpu × Option Nat) :=
  if c.gpu.vblankResult then .ok (c, some 4) else .ok (c, some 0)

/-- Handler 0x03 BGC N. -/
def bgc (p : Params) (c : Cpu) : Except PyErr (Cpu × Option Nat) :=
  .ok ({ c with gpu := { c.gpu with bg := p.n } }, some 4)

/-- Handler 0x04 SPR HHLL. -/
def spr (p : Params) (c : Cpu) : Except PyErr (Cpu × Option Nat) :=
  .ok ({ c with gpu := { c.gpu with spritew := p.ll, spriteh := p.hh } }, some 4)

/-- Handler 0x05 DRW RX, RY, HHLL: the register arguments are
subscripted (x then y, as in the call), the collaborator returns the
collision boolean, and the carry bit is OR-ed into the flags. -/
def drw_hhll (p : Params) (c : Cpu) : Except PyErr (Cpu × Option Nat) :=
  match getReg c p.x with
  | .error e => .error e
  | .ok _ =>
    match getReg c p.y with
    | .error e => .error e
    | .ok _ =>
      .ok ({ c with flag := c.flag ||| ((if c.gpu.drwResult then 1 else 0) <<< 6) }, some 4)

/-- Handler 0x06 DRW RX, RY, RZ: first argument is a word read at
address r[z] (TypeError when r[z] is unset), then r[x] and r[y] are
subscripted; same carry handling. -/
def drw_rz (p : Params) (c : Cpu) : Except PyErr (Cpu × Option Nat) :=
  match getReg c p.z with
  | .error e => .error e
  | .ok none => .error .typeError
  | .ok (some a) =>
    match read c a with
    | .error e => .error e
    | .ok _ =>
      match getReg c p.x with
      | .error e => .error e
      | .ok _ =>
        match getReg c p.y with
        | .error e => .error e
        | .ok _ =>
          .ok ({ c with flag := c.flag ||| ((if c.gpu.drwResult then 1 else 0) <<< 6) }, some 4)

/-- Handler 0x07 RND RX, HHLL: the randint(0, hhll) draw is modelled by
the oracle reduced into [0, hhll]. -/
def rnd (p : Params) (c : Cpu) : Except PyErr (Cpu × Option Nat) :=
  match setReg c p.x (some (c.randOracle % (p.hhll + 1))) with
  | .error e => .error e
  | .ok c1 => .ok (c1, some 4)

/-- Handler 0x08 FLIP: forwards the two flip bits compared against 1. -/
def flip (p : Params) (c : Cpu) : Except PyErr (Cpu × Option Nat) :=
  .ok ({ c with gpu := { c.gpu with flipH := p.hflip == 1, flipV := p.vflip == 1 } }, some 4)

/-- Handler 0x09 SND0. -/
def snd0 (_ : Params) (c : Cpu) : Except PyErr (Cpu × Option Nat) :=
  .ok ({ c with spu := ⟨.stop⟩ }, some 4)

/-- Handler 0x0A SND1 HHLL. -/
def snd1 (p : Params) (c : Cpu) : Except PyErr (Cpu × Option Nat) :=
  .ok ({ c with spu := ⟨.play500 p.hhll⟩ }, some 4)

/-- Handler 0x0B SND2 HHLL. -/
def snd2 (p : Params) (c : Cpu) : Except PyErr (Cpu × Option Nat) :=
  .ok ({ c with spu := ⟨.play1000 p.hhll⟩ }, some 4)

/-- Handler 0x0C SND3 HHLL. -/
def snd3 (p : Params) (c : Cpu) : Except PyErr (Cpu × Option Nat) :=
  .ok ({ c with spu := ⟨.play1500 p.hhll⟩ }, some 4)

/-- Handler 0x0D SNP RX, HHLL: subscripts memory at r[x] (TypeError when
r[x] is unset) and forwards the cell, possibly unset, to the sound
unit. -/
def snp (p : Params) (c : Cpu) : Except PyErr (Cpu × Option Nat) :=
  match getReg c p.x with
  | .error e => .error e
  | .ok none => .error .typeError
  | .ok (some a) =>
    match readCell c a with
    | .error e => .error e
    | .ok cell => .ok ({ c with spu := ⟨.playTone cell p.hhll⟩ }, some 4)

/-- Handler 0x0E SNG AD, VTSR. -/
def sng (p : Params) (c : Cpu) : Except PyErr (Cpu × Option Nat) :=
  .ok ({ c with spu := ⟨.setup p.ad p.vtsr⟩ }, some 4)

/-- Handler 0x10 JMP HHLL: assigns pc and raises JmpException (modelled
by returning no length). -/
def jmp (p : Params) (c : Cpu) : Except PyErr (Cpu × Option Nat) :=
  .ok ({ c with pc := p.hhll }, none)

/-- Handler 0x20 LDI RX, HHLL. -/
def ldi_rx (p : Params) (c : Cpu) : Except PyErr (Cpu × Option Nat) :=
  match setReg c p.x (some p.hhll) with
  | .error e => .error e
  | .ok c1 => .ok (c1, some 4)

/-- Handler 0x21 LDI SP, HHLL. -/
def ldi_sp (p : Params) (c : Cpu) : Except PyErr (Cpu × Option Nat) :=
  .ok ({ c with sp := p.hhll }, some 4)

/-- Handler 0x22 LDM RX, HHLL: copies the single memory cell at hhll
(possibly the None sentinel) into the register. -/
def ldm_rx (p : Params) (c : Cpu) : Except PyErr (Cpu × Option Nat) :=
  match readCell c p.hhll with
  | .error e => .error e
  | .ok cell =>
    match setReg c p.x cell with
    | .error e => .error e
    | .ok c1 => .ok (c1, some 4)

/-- Handler 0x23 LDM RX, RY: copies the single memory cell at address
r[y] into the register (TypeError when r[y] is unset). -/
def ldm_rx_ry (p : Params) (c : Cpu) : Except PyErr (Cpu × Option Nat) :=
  match getReg c p.y with
  | .error e => .error e
  | .ok none => .error .typeError
  | .ok (some a) =>
    match readCell c a with
    | .error e => .error e
    | .ok cell =>
      match setReg c p.x cell with
      | .error e => .error e
      | .ok c1 => .ok (c1, some 4)

/-- Handler 0x24 MOV RX, RY: the source body is identical to the LDM
RX, RY handler. -/
def mov_rx_ry (p : Params) (c : Cpu) : Except PyErr (Cpu × Option Nat) :=
  match getReg c p.y with
  | .error e => .error e
  | .ok none => .error .typeError
  | .ok (some a) =>
    match readCell c a with
    | .error e => .error e
    | .ok cell =>
      match setReg c p.x cell with
      | .error e => .error e
      | .ok c1 => .ok (c1, some 4)

/-- Handler 0x30 STM RX, HHLL: assigns the register value (possibly the
None sentinel) to the single cell at hhll. -/
def stm_rx (p : Params) (c : Cpu) : Except PyErr (Cpu × Option Nat) :=
  match getReg c p.x with
  | .error e => .error e
  | .ok v =>
    match setMem c p.hhll v with
    | .error e => .error e
    | .ok c1 => .ok (c1, some 4)

/-- Handler 0x31 STM RX, RY: assigns the register value to the single
cell at address r[y]; the right-hand side r[x] is evaluated first, then
the target subscript r[y] (TypeError when r[y] is unset). -/
def stm_rx_ry (p : Params) (c : Cpu) : Except PyErr (Cpu × Option Nat) :=
  match getReg c p.x with
  | .error e => .error e
  | .ok v =>
    match getReg c p.y with
    | .error e => .error e
    | .ok none => .error .typeError
    | .ok (some a) =>
      match setMem c a v with
      | .error e => .error e
      | .ok c1 => .ok (c1, some 4)

/-- The opcodes registered in the dispatch table built by
Cpu.__instruction_table. -/
def inTable (op : Nat) : Bool :=
  decide (op ≤ 0x0E) || decide (op = 0x10) ||
  (decide (0x20 ≤ op) && decide (op ≤ 0x24)) ||
  decide (op = 0x30) || decide (op = 0x31)

/-- Dispatch-table lookup and handler invocation: a key without an entry
raises KeyError carrying that key. -/
def exec (op : Nat) (p : Params) (c : Cpu) : Except PyErr (Cpu × Option Nat) :=
  match op with
  | 0x00 => nop p c
  | 0x01 => cls p c
  | 0x02 => vblank p c
  | 0x03 => bgc p c
  | 0x04 => spr p c
  | 0x05 => drw_hhll p c
  | 0x06 => drw_rz p c
  | 0x07 => rnd p c
  | 0x08 => flip p c
  | 0x09 => snd0 p c
  | 0x0A => snd1 p c
  | 0x0B => snd2 p c
  | 0x0C => snd3 p c
  | 0x0D => snp p c
  | 0x0E => sng p c
  | 0x10 => jmp p c
  | 0x20 => ldi_rx p c
  | 0x21 => ldi_sp p c
  | 0x22 => ldm_rx p c
  | 0x23 => ldm_rx_ry p c
  | 0x24 => mov_rx_ry p c
  | 0x30 => stm_rx p c
  | 0x31 => stm_rx_ry p c
  | o => .error (.keyError (some o))

/-- Cpu.step: decode at pc, look the opcode up in the table (a missing
entry, including an unset opcode cell, raises KeyError with the key),
run the handler, add the returned length to pc unless JmpException was
raised, then increment the cycle counter by one. -/
def step (c : Cpu) : Except PyErr Cpu :=
  match create_params c c.pc with
  | .error e => .error e
  | .ok p =>
    match p.op_code with
    | none => .error (.keyError none)
    | some op =>
      match exec op p c with
      | .error e => .error e
      | .ok (c2, some len) =>
        .ok { c2 with pc := c2.pc + len, current_cyles := c2.current_cyles + 1 }
      | .ok (c2, none) =>
        .ok { c2 with current_cyles := c2.current_cyles + 1 }

/-- A memory image from an association list of address and byte pairs;
every unlisted cell is unset. -/
def memOf (l : List (Nat × Nat)) : Fin 65536 → Option Nat :=
  fun i => List.lookup i.val l

/-- A register file from an association list; every unlisted register is
unset. -/
def regOf (l : List (Nat × Nat)) : Fin 16 → Option Nat :=
  fun i => List.lookup i.val l

/-- The collaborators in their initial quiescent shape: the graphics
unit reports no vblank and no collision. -/
def gpu0 : Gpu :=
  { vblankResult := false, drwResult := false, bg := 0, spritew := 0,
    spriteh := 0, fgCleared := false, bgCleared := false,
    flipH := false, flipV := false }

/-- The machine right after reset, with quiescent collaborators. -/
def cpu0 : Cpu :=
  Cpu.reset { pc := 0, sp := 0, r := fun _ => none, flag := 0,
              memory := fun _ => none, current_cyles := 0,
              gpu := gpu0, spu := ⟨.idle⟩, randOracle := 0 }

/-
General lemmas about the embedding, shared by the claim theorems below.
-/

/-- Splitting a value into its high part and low byte and OR-ing them
back together is the identity. -/
lemma lowHigh_recombine (v : Nat) : ((v >>> 8) <<< 8) ||| (v &&& 255) = v := by
  apply Nat.eq_of_testBit_eq
  intro i
  simp only [Nat.testBit_lor, Nat.testBit_shiftLeft, Nat.testBit_shiftRight, Nat.testBit_and]
  rcases Nat.lt_or_ge i 8 with h | h
  · have h255 : Nat.testBit 255 i = true := by
      have h2 : (255 : Nat) = 2 ^ 8 - 1 := by norm_num
      rw [h2, Nat.testBit_two_pow_sub_one]
      simpa using h
    simp [h255, decide_eq_false (Nat.not_le.mpr h)]
  · have h255 : Nat.testBit 255 i = false := by
      apply Nat.testBit_lt_two_pow
      calc (255 : Nat) < 2 ^ 8 := by norm_num
        _ ≤ 2 ^ i := Nat.pow_le_pow_right (by norm_num) h
    have hi : 8 + (i - 8) = i := by omega
    simp [h255, decide_eq_true h, hi]

/-- A register write never changes the flags. -/
lemma setReg_flag {c c1 : Cpu} {i : Nat} {v : Option Nat}
    (h : setReg c i v = .ok c1) : c1.flag = c.flag := by
  unfold setReg at h
  split at h
  · exact ((Except.ok.inj h).symm ▸ rfl : c1.flag = c.flag)
  · exact Except.noConfusion h

/-- A memory-cell write never changes the flags. -/
lemma setMem_flag {c c1 : Cpu} {i : Nat} {v : Option Nat}
    (h : setMem c i v = .ok c1) : c1.flag = c.flag := by
  unfold setMem at h
  split at h
  · exact ((Except.ok.inj h).symm ▸ rfl : c1.flag = c.flag)
  · exact Except.noConfusion h

/-- OR-ing can only add bits. -/
lemma lor_testBit_mono {f x i : Nat} (hb : f.testBit i = true) :
    (f ||| x).testBit i = true := by
  simp [Nat.testBit_lor, hb]

/-- Bit 6 after OR-ing in the draw carry is the old bit 6 OR-ed with the
collision boolean. -/
lemma flag_or_testBit6 (f : Nat) (b : Bool) :
    (f ||| ((if b then 1 else 0) <<< 6)).testBit 6 = (f.testBit 6 || b) := by
  cases b
  · simp [Nat.testBit_lor]
  · simp only [if_true, Nat.testBit_lor, Bool.or_eq_true]
    rw [show Nat.testBit (1 <<< 6) 6 = true from by decide]

/-- A successful step decomposes into a successful handler run followed
by the pc-advance (suppressed for a jump) and the cycle increment. -/
lemma step_ok_decomp {c c1 : Cpu} {p : Params} {op : Nat}
    (hp : create_params c c.pc = .ok p) (hop : p.op_code = some op)
    (hs : step c = .ok c1) :
    ∃ c2 adv, exec op p c = .ok (c2, adv) ∧
      c1 = (match adv with
            | some len => { c2 with pc := c2.pc + len, current_cyles := c2.current_cyles + 1 }
            | none => { c2 with current_cyles := c2.current_cyles + 1 }) := by
  simp only [step, hp, hop] at hs
  rcases hex : exec op p c with e | ⟨c2, adv⟩
  · rw [hex] at hs
    exact Except.noConfusion hs
  · cases adv with
    | some len =>
        rw [hex] at hs
        exact ⟨c2, some len, rfl, (Except.ok.inj hs).symm⟩
    | none =>
        rw [hex] at hs
        exact ⟨c2, none, rfl, (Except.ok.inj hs).symm⟩

/-- No handler run can clear a flag bit: every bit set before a
successful handler invocation is still set afterwards. The only
handlers that write the flags at all are the two draw handlers, and
they OR the carry in. -/
lemma exec_flag_mono {op : Nat} {p : Params} {c c2 : Cpu} {adv : Option Nat}
    (h : exec op p c = .ok (c2, adv)) (i : Nat) (hb : c.flag.testBit i = true) :
    c2.flag.testBit i = true := by
  unfold exec at h
  split at h
  · unfold nop at h
    obtain ⟨rfl, rfl⟩ := Prod.mk.injEq .. ▸ Except.ok.inj h
    exact hb
  · unfold cls at h
    obtain ⟨rfl, rfl⟩ := Prod.mk.injEq .. ▸ Except.ok.inj h
    exact hb
  · unfold vblank at h
    split at h <;>
      (obtain ⟨rfl, rfl⟩ := Prod.mk.injEq .. ▸ Except.ok.inj h; exact hb)
  · unfold bgc at h
    obtain ⟨rfl, rfl⟩ := Prod.mk.injEq .. ▸ Except.ok.inj h
    exact hb
  · unfold spr at h
    obtain ⟨rfl, rfl⟩ := Prod.mk.injEq .. ▸ Except.ok.inj h
    exact hb
  · unfold drw_hhll at h
    rcases hx : getReg c p.x with e | vx <;> rw [hx] at h
    · exact Except.noConfusion h
    rcases hy : getReg c p.y with e | vy <;> rw [hy] at h
    · exact Except.noConfusion h
    obtain ⟨rfl, rfl⟩ := Prod.mk.injEq .. ▸ Except.ok.inj h
    exact lor_testBit_mono hb
  · unfold drw_rz at h
    rcases hz : getReg c p.z with e | oz <;> rw [hz] at h
    · exact Except.noConfusion h
    rcases oz with _ | a
    · exact Except.noConfusion h
    replace h : (match read c a with
      | .error e => (Except.error e : Except PyErr (Cpu × Option Nat))
      | .ok _ =>
        match getReg c p.x with
        | .error e => .error e
        | .ok _ =>
          match getReg c p.y with
          | .error e => .error e
          | .ok _ =>
            .ok ({ c with flag := c.flag ||| ((if c.gpu.drwResult then 1 else 0) <<< 6) },
              some 4)) = .ok (c2, adv) := h
    rcases hr : read c a with e | w <;> rw [hr] at h
    · exact Except.noConfusion h
    rcases hx : getReg c p.x with e | vx <;> rw [hx] at h
    · exact Except.noConfusion h
    rcases hy : getReg c p.y with e | vy <;> rw [hy] at h
    · exact Except.noConfusion h
    obtain ⟨rfl, rfl⟩ := Prod.mk.injEq .. ▸ Except.ok.inj h
    exact lor_testBit_mono hb
  · unfold rnd at h
    rcases hs : setReg c p.x (some (c.randOracle % (p.hhll + 1))) with e | cx <;> rw [hs] at h
    · exact Except.noConfusion h
    obtain ⟨rfl, rfl⟩ := Prod.mk.injEq .. ▸ Except.ok.inj h
    rw [setReg_flag hs]
    exact hb
  · unfold flip at h
    obtain ⟨rfl, rfl⟩ := Prod.mk.injEq .. ▸ Except.ok.inj h
    exact hb
  · unfold snd0 at h
    obtain ⟨rfl, rfl⟩ := Prod.mk.injEq .. ▸ Except.ok.inj h
    exact hb
  · unfold snd1 at h
    obtain ⟨rfl, rfl⟩ := Prod.mk.injEq .. ▸ Except.ok.inj h
    exact hb
  · unfold snd2 at h
    obtain ⟨rfl, rfl⟩ := Prod.mk.injEq .. ▸ Except.ok.inj h
    exact hb
  · unfold snd3 at h
    obtain ⟨rfl, rfl⟩ := Prod.mk.injEq .. ▸ Except.ok.inj h
    exact hb
  · unfold snp at h
    rcases hx : getReg c p.x with e | ox <;> rw [hx] at h
    · exact Except.noConfusion h
    rcases ox with _ | a
    · exact Except.noConfusion h
    replace h : (match readCell c a with
      | .error e => (Except.error e : Except PyErr (Cpu × Option Nat))
      | .ok cell => .ok ({ c with spu := ⟨.playTone cell p.hhll⟩ }, some 4)) = .ok (c2, adv) := h
    rcases hr : readCell c a with e | cell <;> rw [hr] at h
    · exact Except.noConfusion h
    obtain ⟨rfl, rfl⟩ := Prod.mk.injEq .. ▸ Except.ok.inj h
    exact hb
  · unfold sng at h
    obtain ⟨rfl, rfl⟩ := Prod.mk.injEq .. ▸ Except.ok.inj h
    exact hb
  · unfold jmp at h
    obtain ⟨rfl, rfl⟩ := Prod.mk.injEq .. ▸ Except.ok.inj h
    exact hb
  · unfold ldi_rx at h
    rcases hs : setReg c p.x (some p.hhll) with e | cx <;> rw [hs] at h
    · exact Except.noConfusion h
    obtain ⟨rfl, rfl⟩ := Prod.mk.injEq .. ▸ Except.ok.inj h
    rw [setReg_flag hs]
    exact hb
  · unfold ldi_sp at h
    obtain ⟨rfl, rfl⟩ := Prod.mk.injEq .. ▸ Except.ok.inj h
    exact hb
  · unfold ldm_rx at h
    rcases hr : readCell c p.hhll with e | cell <;> rw [hr] at h
    · exact Except.noConfusion h
    replace h : (match setReg c p.x cell with
      | .error e => (Except.error e : Except PyErr (Cpu × Option Nat))
      | .ok c1 => .ok (c1, some 4)) = .ok (c2, adv) := h
    rcases hs : setReg c p.x cell with e | cx <;> rw [hs] at h
    · exact Except.noConfusion h
    obtain ⟨rfl, rfl⟩ := Prod.mk.injEq .. ▸ Except.ok.inj h
    rw [setReg_flag hs]
    exact hb
  · unfold ldm_rx_ry at h
    rcases hy : getReg c p.y with e | oy <;> rw [hy] at h
    · exact Except.noConfusion h
    rcases oy with _ | a
    · exact Except.noConfusion h
    replace h : (match readCell c a with
      | .error e => (Except.error e : Except PyErr (Cpu × Option Nat))
      | .ok cell =>
        match setReg c p.x cell with
        | .error e => .error e
        | .ok c1 => .ok (c1, some 4)) = .ok (c2, adv) := h
    rcases hr : readCell c a with e | cell <;> rw [hr] at h
    · exact Except.noConfusion h
    replace h : (match setReg c p.x cell with
      | .error e => (Except.error e : Except PyErr (Cpu × Option Nat))
      | .ok c1 => .ok (c1, some 4)) = .ok (c2, adv) := h
    rcases hs : setReg c p.x cell with e | cx <;> rw [hs] at h
    · exact Except.noConfusion h
    obtain ⟨rfl, rfl⟩ := Prod.mk.injEq .. ▸ Except.ok.inj h
    rw [setReg_flag hs]
    exact hb
  · unfold mov_rx_ry at h
    rcases hy : getReg c p.y with e | oy <;> rw [hy] at h
    · exact Except.noConfusion h
    rcases oy with _ | a
    · exact Except.noConfusion h
    replace h : (match readCell c a with
      | .error e => (Except.error e : Except PyErr (Cpu × Option Nat))
      | .ok cell =>
        match setReg c p.x cell with
        | .error e => .error e
        | .ok c1 => .ok (c1, some 4)) = .ok (c2, adv) := h
    rcases hr : readCell c a with e | cell <;> rw [hr] at h
    · exact Except.noConfusion h
    replace h : (match setReg c p.x cell with
      | .error e => (Except.error e : Except PyErr (Cpu × Option Nat))
      | .ok c1 => .ok (c1, some 4)) = .ok (c2, adv) := h
    rcases hs : setReg c p.x cell with e | cx <;> rw [hs] at h
    · exact Except.noConfusion h
    obtain ⟨rfl, rfl⟩ := Prod.mk.injEq .. ▸ Except.ok.inj h
    rw [setReg_flag hs]
    exact hb
  · unfold stm_rx at h
    rcases hx : getReg c p.x with e | v <;> rw [hx] at h
    · exact Except.noConfusion h
    replace h : (match setMem c p.hhll v with
      | .error e => (Except.error e : Except PyErr (Cpu × Option Nat))
      | .ok c1 => .ok (c1, some 4)) = .ok (c2, adv) := h
    rcases hs : setMem c p.hhll v with e | cm <;> rw [hs] at h
    · exact Except.noConfusion h
    obtain ⟨rfl, rfl⟩ := Prod.mk.injEq .. ▸ Except.ok.inj h
    rw [setMem_flag hs]
    exact hb
  · unfold stm_rx_ry at h
    rcases hx : getReg c p.x with e | v <;> rw [hx] at h
    · exact Except.noConfusion h
    replace h : (match getReg c p.y with
      | .error e => (Except.error e : Except PyErr (Cpu × Option Nat))
      | .ok none => .error .typeError
      | .ok (some a) =>
        match setMem c a v with
        | .error e => .error e
        | .ok c1 => .ok (c1, some 4)) = .ok (c2, adv) := h
    rcases hy : getReg c p.y with e | oy <;> rw [hy] at h
    · exact Except.noConfusion h
    rcases oy with _ | a
    · exact Except.noConfusion h
    replace h : (match setMem c a v with
      | .error e => (Except.error e : Except PyErr (Cpu × Option Nat))
      | .ok c1 => .ok (c1, some 4)) = .ok (c2, adv) := h
    rcases hs : setMem c a v with e | cm <;> rw [hs] at h
    · exact Except.noConfusion h
    obtain ⟨rfl, rfl⟩ := Prod.mk.injEq .. ▸ Except.ok.inj h
    rw [setMem_flag hs]
    exact hb
  · exact Except.noConfusion h

/-
Concrete machine states used by the claim theorems, counterexamples and
witnesses.
-/

/-- Memory holding JMP 0x1234 at address 0 (bytes 0x10 0x00 0x34 0x12). -/
def jmpCpu : Cpu :=
  { cpu0 with memory := memOf [(0, 0x10), (1, 0x00), (2, 0x34), (3, 0x12)] }

/-- Memory holding STM r0, 0x2000 at address 0 and register r0 holding
the 16-bit value 0x1234. -/
def stmCpu : Cpu :=
  { cpu0 with r := regOf [(0, 0x1234)],
              memory := memOf [(0, 0x30), (1, 0x00), (2, 0x00), (3, 0x20)] }

/-- Memory holding LDM r0, 0x2000 at address 0 and the little-endian
word 0x1234 stored in the two cells at 0x2000. -/
def ldmCpu : Cpu :=
  { cpu0 with memory := memOf [(0, 0x22), (1, 0x00), (2, 0x00), (3, 0x20),
                               (0x2000, 0x34), (0x2001, 0x12)] }

/-- An unregistered opcode byte 0xFF at address 0, pc = 0. -/
def kErrCpuA : Cpu :=
  { cpu0 with memory := memOf [(0, 0xFF), (1, 0), (2, 0), (3, 0)] }

/-- The same unregistered opcode byte 0xFF, but at address 4, pc = 4. -/
def kErrCpuB : Cpu :=
  { cpu0 with pc := 4, memory := memOf [(4, 0xFF), (5, 0), (6, 0), (7, 0)] }

/-- Memory with the 2 operand cells below the top of memory set, so that
decoding at 65533 reaches the out-of-range 4th instruction byte. -/
def hiCpu : Cpu :=
  { cpu0 with memory := memOf [(65534, 1), (65535, 1)] }

/-- A DRW rx, ry, hhll instruction at address 0 on a machine whose Carry
bit (bit 6) is already set and whose graphics unit reports no
collision. -/
def drwCpu : Cpu :=
  { cpu0 with flag := 0b01000000, memory := memOf [(0, 0x05), (1, 0), (2, 0), (3, 0)] }

/-- A VBLNK instruction at address 0; the graphics unit reports
not-blanking. -/
def vbCpu : Cpu :=
  { cpu0 with memory := memOf [(0, 0x02), (1, 0), (2, 0), (3, 0)] }

/-- A NOP instruction at address 0 on a machine with flag bit 3 set. -/
def nopCpu : Cpu :=
  { cpu0 with flag := 0b00001000, memory := memOf [(0, 0), (1, 0), (2, 0), (3, 0)] }

/-
Claim theorems.
-/

/-- Claim C1: JMP contract. With memory bytes 0x10 0x00 0x34 0x12 at
address 0 and pc = 0, one step sets pc to 0x1234, not 0x0004: the
handler assigns pc = hhll and the JmpException suppresses the default
pc-advance; the cycle counter still increments. -/
theorem jmp_contract :
    ∃ c1, step jmpCpu = .ok c1 ∧ c1.pc = 0x1234 ∧ c1.pc ≠ 0x0004 ∧
      c1.current_cyles = jmpCpu.current_cyles + 1 :=
  ⟨{ jmpCpu with pc := 0x1234, current_cyles := 1 }, rfl, rfl, by decide, rfl⟩

/-- Claim C2, counterexample. The decoder is not total: on the reset
machine (all cells unset) decoding address 0 raises TypeError instead of
reading the unset operand cells as zero, and with the top two cells set,
decoding address 65533 raises IndexError for the 4th instruction byte. -/
theorem create_params_fails_on_unset :
    create_params cpu0 0 = .error .typeError ∧
    create_params hiCpu 65533 = .error (.indexError 65536) :=
  ⟨rfl, rfl⟩

/-- Claim C2, amended. The decoder succeeds and returns the decoded
field set exactly when the instruction slot stays in range and the three
operand cells are set; the opcode cell itself may be unset, as it is
stored without arithmetic. -/
theorem create_params_ok_of_set_cells (c : Cpu) (a b1 b2 b3 : Nat) (ha : a < 65536)
    (h1 : getCell c (a + 1) = .ok b1) (h2 : getCell c (a + 2) = .ok b2)
    (h3 : getCell c (a + 3) = .ok b3) :
    create_params c a = .ok
      { op_code := c.memory ⟨a, ha⟩, y := b1 >>> 4, x := b1 &&& 0b1111,
        n := b2 &&& 0b1111, z := b2 &&& 0b1111, ll := b2, hh := b3,
        hflip := b3 >>> 1, vflip := b3 &&& 1,
        hhll := (b3 <<< 8) ||| b2, vtsr := (b3 <<< 8) ||| b2, ad := b1 } := by
  unfold create_params readCell
  rw [dif_pos ha, h1, h2, h3]

/-- Claim C2, witness for the amended theorem at a concrete machine. -/
theorem create_params_ok_witness :
    create_params jmpCpu 0 = .ok
      { op_code := some 0x10, y := 0, x := 0, n := 4, z := 4, ll := 0x34,
        hh := 0x12, hflip := 9, vflip := 0, hhll := 0x1234, vtsr := 0x1234,
        ad := 0 } :=
  create_params_ok_of_set_cells jmpCpu 0 0 0x34 0x12 (by decide) rfl rfl rfl

/-- Claim C3: evaluation at the failing input. Executing STM r0, 0x2000
with r0 = 0x1234 writes the whole 16-bit value into the single cell at
0x2000 and leaves the cell at 0x2001 unset, so the subsequent word read
at 0x2000 raises TypeError instead of returning the stored value. -/
theorem stm_single_cell_eval :
    ∃ c1, step stmCpu = .ok c1 ∧
      c1.memory ⟨0x2000, by decide⟩ = some 0x1234 ∧
      c1.memory ⟨0x2001, by decide⟩ = none ∧
      read c1 0x2000 = .error .typeError :=
  ⟨{ stmCpu with memory := Function.update stmCpu.memory ⟨0x2000, by decide⟩ (some 0x1234), pc := 4, current_cyles := 1 }, rfl, rfl, rfl, rfl⟩

/-- Claim C4: evaluation at the failing input. With the little-endian
word 0x1234 stored at 0x2000 (read 0x2000 yields 0x1234), executing
LDM r0, 0x2000 loads only the single cell at 0x2000 into r0, giving
0x34 instead of the 16-bit word. -/
theorem ldm_single_cell_eval :
    ∃ c1, step ldmCpu = .ok c1 ∧
      c1.r ⟨0, by decide⟩ = some 0x34 ∧
      read ldmCpu 0x2000 = .ok 0x1234 :=
  ⟨{ ldmCpu with r := Function.update ldmCpu.r ⟨0, by decide⟩ (some 0x34), pc := 4, current_cyles := 1 }, rfl, rfl, rfl⟩

/-- Claim C5, counterexample. The dispatch failure does not carry the
offending address: two machines whose pc differ (0 and 4) but hold the
same unregistered opcode byte 0xFF produce identical failure values, so
no information about the address is in this failure. -/
theorem dispatch_error_lacks_address :
    step kErrCpuA = .error (.keyError (some 0xFF)) ∧
    step kErrCpuB = .error (.keyError (some 0xFF)) ∧
    kErrCpuA.pc ≠ kErrCpuB.pc :=
  ⟨rfl, rfl, by decide⟩

/-- Claim C5, amended. Dispatching an opcode with no table entry
surfaces a KeyError fatal failure carrying the opcode byte (only), and
it does so before any state mutation of the step. -/
theorem dispatch_failure_keyerror (c : Cpu) (p : Params) (op : Nat)
    (hp : create_params c c.pc = .ok p) (hop : p.op_code = some op)
    (htab : inTable op = false) :
    step c = .error (.keyError (some op)) := by
  simp only [inTable, Bool.or_eq_false_iff, Bool.and_eq_false_iff,
    decide_eq_false_iff_not] at htab
  have hexec : exec op p c = .error (.keyError (some op)) := by
    unfold exec
    split
    all_goals first | rfl | omega
  simp only [step, hp, hop, hexec]

/-- Claim C5, witness for the amended theorem at a concrete machine. -/
theorem dispatch_failure_keyerror_witness :
    step kErrCpuA = .error (.keyError (some 0xFF)) :=
  dispatch_failure_keyerror kErrCpuA
    ⟨some 0xFF, 0, 0, 0, 0, 0, 0, 0, 0, 0, 0, 0⟩ 0xFF rfl rfl (by decide)

/-- Claim C6: word write/read round-trip. For every machine, every
address up to 65533 and every 16-bit value, writing the value and
reading it back yields its signed 16-bit interpretation. -/
theorem write_read_round_trip (c : Cpu) (a v : Nat) (ha : a ≤ 65533) (hv : v ≤ 65535) :
    ∃ c1, write c a v = .ok c1 ∧ read c1 a = .ok (create_16bit_two_complement v) := by
  have ha1 : a < 65536 := by omega
  have ha2 : a + 1 < 65536 := by omega
  have hne : (⟨a, ha1⟩ : Fin 65536) ≠ ⟨a + 1, ha2⟩ := by
    simp [Fin.ext_iff]
  refine ⟨{ c with memory := Function.update (Function.update c.memory ⟨a, ha1⟩ (some (v &&& 0xFF))) ⟨a + 1, ha2⟩ (some (v >>> 8)) }, ?_, ?_⟩
  · simp only [write, setMem, dif_pos ha1, dif_pos ha2]
  · simp only [read, getCell, readCell, dif_pos ha1, dif_pos ha2]
    rw [Function.update_same, Function.update_noteq hne, Function.update_same]
    show Except.ok (create_16bit_two_complement ((v >>> 8) <<< 8 ||| (v &&& 255))) = Except.ok (create_16bit_two_complement v)
    rw [lowHigh_recombine]

/-- Claim C6, witness at a concrete machine, address and value (a value
with bit 15 set, exercising the signed interpretation). -/
theorem write_read_round_trip_witness :
    ∃ c1, write cpu0 0x2000 0x8001 = .ok c1 ∧
      read c1 0x2000 = .ok (create_16bit_two_complement 0x8001) :=
  write_read_round_trip cpu0 0x2000 0x8001 (by decide) (by decide)

/-- Claim C7, counterexample. Bit 6 of the flags does not equal the
collision result after a draw: on a machine whose Carry bit is already
set, a draw whose collision result is false leaves bit 6 set. -/
theorem drw_carry_not_equal_collision :
    ∃ c1, step drwCpu = .ok c1 ∧ c1.flag.testBit 6 ≠ drwCpu.gpu.drwResult :=
  ⟨{ drwCpu with flag := 0b01000000, pc := 4, current_cyles := 1 }, rfl, by decide⟩

/-- Claim C7, amended. After either draw opcode, the flags word is the
old flags word OR-ed with the collision bit shifted to position 6: bit 6
afterwards is the old bit 6 OR-ed with the collision result (set when a
collision is reported, unchanged otherwise). -/
theorem drw_carry_or_collision (c c1 : Cpu) (p : Params) (op : Nat)
    (hp : create_params c c.pc = .ok p) (hop : p.op_code = some op)
    (hdrw : op = 0x05 ∨ op = 0x06) (hs : step c = .ok c1) :
    c1.flag = c.flag ||| ((if c.gpu.drwResult then 1 else 0) <<< 6) ∧
    c1.flag.testBit 6 = (c.flag.testBit 6 || c.gpu.drwResult) := by
  have hflag : c1.flag = c.flag ||| ((if c.gpu.drwResult then 1 else 0) <<< 6) := by
    obtain ⟨c2, adv, hex, hc1⟩ := step_ok_decomp hp hop hs
    rcases hdrw with rfl | rfl
    · rw [show exec 0x05 p c = drw_hhll p c from rfl] at hex
      unfold drw_hhll at hex
      rcases h1 : getReg c p.x with e | v1 <;> rw [h1] at hex
      · exact Except.noConfusion hex
      rcases h2 : getReg c p.y with e | v2 <;> rw [h2] at hex
      · exact Except.noConfusion hex
      obtain ⟨rfl, rfl⟩ := Prod.mk.injEq .. ▸ Except.ok.inj hex
      subst hc1
      rfl
    · rw [show exec 0x06 p c = drw_rz p c from rfl] at hex
      unfold drw_rz at hex
      rcases h0 : getReg c p.z with e | (_ | a) <;> rw [h0] at hex
      · exact Except.noConfusion hex
      · exact Except.noConfusion hex
      replace hex : (match read c a with
        | .error e => (Except.error e : Except PyErr (Cpu × Option Nat))
        | .ok _ =>
          match getReg c p.x with
          | .error e => .error e
          | .ok _ =>
            match getReg c p.y with
            | .error e => .error e
            | .ok _ =>
              .ok ({ c with flag := c.flag ||| ((if c.gpu.drwResult then 1 else 0) <<< 6) },
                some 4)) = .ok (c2, adv) := hex
      rcases hr : read c a with e | w <;> rw [hr] at hex
      · exact Except.noConfusion hex
      rcases h1 : getReg c p.x with e | v1 <;> rw [h1] at hex
      · exact Except.noConfusion hex
      rcases h2 : getReg c p.y with e | v2 <;> rw [h2] at hex
      · exact Except.noConfusion hex
      obtain ⟨rfl, rfl⟩ := Prod.mk.injEq .. ▸ Except.ok.inj hex
      subst hc1
      rfl
  exact ⟨hflag, by rw [hflag]; exact flag_or_testBit6 c.flag c.gpu.drwResult⟩

/-- Claim C7, witness for the amended theorem at a concrete machine. -/
theorem drw_carry_or_collision_witness :
    Cpu.flag { drwCpu with flag := 0b01000000, pc := 4, current_cyles := 1 } =
      drwCpu.flag ||| ((if drwCpu.gpu.drwResult then 1 else 0) <<< 6) ∧
    (Cpu.flag { drwCpu with flag := 0b01000000, pc := 4, current_cyles := 1 }).testBit 6 =
      (drwCpu.flag.testBit 6 || drwCpu.gpu.drwResult) :=
  drw_carry_or_collision drwCpu
    { drwCpu with flag := 0b01000000, pc := 4, current_cyles := 1 }
    ⟨some 0x05, 0, 0, 0, 0, 0, 0, 0, 0, 0, 0, 0⟩ 0x05 rfl rfl (Or.inl rfl) rfl

/-- Claim C8: VBLNK busy-poll. Stepping a machine whose pc points at a
VBLNK instruction always succeeds and increments the cycle counter by
exactly 1 (the same fixed amount as any step); pc stays unchanged when
the graphics unit reports not-blanking and advances by 4 when it
reports vblank. -/
theorem vblnk_busy_poll (c : Cpu) (p : Params)
    (hp : create_params c c.pc = .ok p) (hop : p.op_code = some 0x02) :
    ∃ c1, step c = .ok c1 ∧ c1.current_cyles = c.current_cyles + 1 ∧
      (c.gpu.vblankResult = false → c1.pc = c.pc) ∧
      (c.gpu.vblankResult = true → c1.pc = c.pc + 4) := by
  cases hvb : c.gpu.vblankResult
  · refine ⟨{ c with pc := c.pc + 0, current_cyles := c.current_cyles + 1 }, ?_, rfl,
      fun _ => rfl, fun hh => Bool.noConfusion hh⟩
    simp only [step, hp, hop]
    rw [show exec 0x02 p c = vblank p c from rfl]
    unfold vblank
    rw [hvb]
    rfl
  · refine ⟨{ c with pc := c.pc + 4, current_cyles := c.current_cyles + 1 }, ?_, rfl,
      fun hh => Bool.noConfusion hh, fun _ => rfl⟩
    simp only [step, hp, hop]
    rw [show exec 0x02 p c = vblank p c from rfl]
    unfold vblank
    rw [hvb]
    rfl

/-- Claim C8, witness at a concrete machine whose graphics unit reports
not-blanking. -/
theorem vblnk_busy_poll_witness :
    ∃ c1, step vbCpu = .ok c1 ∧ c1.current_cyles = vbCpu.current_cyles + 1 ∧
      (vbCpu.gpu.vblankResult = false → c1.pc = vbCpu.pc) ∧
      (vbCpu.gpu.vblankResult = true → c1.pc = vbCpu.pc + 4) :=
  vblnk_busy_poll vbCpu ⟨some 0x02, 0, 0, 0, 0, 0, 0, 0, 0, 0, 0, 0⟩ rfl rfl

/-- Claim C9: MOV/LDM alias equivalence. For every decoded field set and
every machine state, dispatching opcode 0x24 runs the same computation
as dispatching opcode 0x23: both load the single memory cell at address
r[y] into register x, with identical resulting state and outcome. -/
theorem mov_ldm_equiv : ∀ (p : Params) (c : Cpu), exec 0x24 p c = exec 0x23 p c :=
  fun _ _ => rfl

/-- Claim C10: flag stickiness. No successful step ever clears a flag
bit (every bit set before the step is still set after it), and the
flags word returns to 0 via reset. -/
theorem flag_sticky :
    (∀ (c c1 : Cpu), step c = .ok c1 → ∀ i, c.flag.testBit i = true →
      c1.flag.testBit i = true) ∧
    (∀ c : Cpu, (Cpu.reset c).flag = 0) := by
  constructor
  · intro c c1 hs i hb
    rcases hcp : create_params c c.pc with e | p
    · unfold step at hs
      rw [hcp] at hs
      exact Except.noConfusion hs
    rcases hop : p.op_code with _ | op
    · unfold step at hs
      rw [hcp] at hs
      replace hs : (match p.op_code with
        | none => (Except.error (PyErr.keyError none) : Except PyErr Cpu)
        | some op =>
          match exec op p c with
          | .error e => .error e
          | .ok (c2, some len) =>
            .ok { c2 with pc := c2.pc + len, current_cyles := c2.current_cyles + 1 }
          | .ok (c2, none) =>
            .ok { c2 with current_cyles := c2.current_cyles + 1 }) = .ok c1 := hs
      rw [hop] at hs
      exact Except.noConfusion hs
    obtain ⟨c2, adv, hex, hc1⟩ := step_ok_decomp hcp hop hs
    subst hc1
    rcases adv with _ | len
    · exact exec_flag_mono hex i hb
    · exact exec_flag_mono hex i hb
  · intro c
    rfl

/-- Claim C10, witness: a NOP step on a machine with flag bit 3 set
keeps that bit set. -/
theorem flag_sticky_witness :
    (Cpu.flag { nopCpu with pc := 4, current_cyles := 1 }).testBit 3 = true :=
  flag_sticky.1 nopCpu { nopCpu with pc := 4, current_cyles := 1 } rfl 3 (by decide)

end Chip16
